import Mathlib

/-!
Shallow embedding of the cascade replay engine of `frontendJuegoPiloto`
(`src/src/game/phaser-board.tsx`) together with the game state machine
(`src/src/game/state-machine.ts`).  Pure helpers are translated directly;
the timer-driven sequencer is modelled by explicit state passing over a
`SceneState` record, with the notification trace made explicit.  Visual
side effects (tweens, particle effects, cell containers) are not observable
through the notification interface and are abstracted away; the places
where `Math.random` is consulted are modelled by threading an explicit
random stream so that independence results can be stated.
-/

namespace Piloto

/-- TS `CellRef { row: number; col: number }` (`src/api/types`, part_001).
Coordinates may be negative or out of range in malformed data, hence `Int`. -/
structure CellRef where
  row : Int
  col : Int
deriving DecidableEq, Repr

/-- TS `DropIn { col: number; symbols: string[] }`. -/
structure DropIn where
  col : Int
  symbols : List String
deriving DecidableEq, Repr

/-- The `bonusData` record of a `CascadeStep` (only the fields the board
scene reads: `triggerCount` and `triggerCells`). -/
structure BonusData where
  triggerCount : Int
  triggerCells : Option (List CellRef)
deriving DecidableEq, Repr

/-- TS `CascadeStep` from `src/api/types`: `removeCells`, `dropIn`,
`winStep : number`, optional `gridAfter`, optional `bonus` flag and
`bonusData`. -/
structure CascadeStep where
  removeCells : List CellRef
  dropIn : List DropIn
  winStep : Rat
  gridAfter : Option (List (List String))
  bonus : Bool
  bonusData : Option BonusData
deriving DecidableEq, Repr

/-- TS `PlayOutcome` from `src/api/types` (fields used by the board). -/
structure PlayOutcome where
  playId : String
  mode : String
  bet : Rat
  grid0 : List (List String)
  cascades : List CascadeStep
  totalWin : Rat
deriving DecidableEq, Repr

/-- A board shape, as produced by `pickBoardSize`. -/
structure GridSize where
  rows : Nat
  cols : Nat
deriving DecidableEq, Repr

/-- The `BONUS_TRIGGER_SYMBOL` (`phaser-board.tsx` line 42). -/
def BONUS_TRIGGER_SYMBOL : String := "N"

/-- The `BONUS_HIGHLIGHT_LIMIT` (`phaser-board.tsx` line 43). -/
def BONUS_HIGHLIGHT_LIMIT : Int := 3

/-- The `FALLBACK_STRIP_SYMBOLS` (`phaser-board.tsx` line 47). -/
def FALLBACK_STRIP_SYMBOLS : List String :=
  ["A", "B", "C", "D", "E", "F", "G", "H", "I", "J", "K", "L", "M", "N", "O"]

/-- The `grid[r]?.[c] ?? ""`: JS optional-chained 2D lookup with empty-string
default. -/
def lookup2 (grid : List (List String)) (r c : Nat) : String :=
  (grid.getD r []).getD c ""

/-- The `normalizeGrid` (`phaser-board.tsx` lines 65-70): pad/clamp a grid to
exactly `rows × cols`, missing cells becoming `""`. -/
def normalizeGrid (grid : List (List String)) (rows cols : Nat) : List (List String) :=
  (List.range rows).map fun r => (List.range cols).map fun c => lookup2 grid r c

/-- The `LEVEL_ONE_PREVIEW_SIZE` / `LEVEL_TWO_PREVIEW_SIZE` choice at the end of
`pickBoardSize` (lines 59-62). -/
def pickModeSize (mode : Option String) : GridSize :=
  if mode = some "nivel1" then ⟨3, 5⟩ else ⟨7, 5⟩

/-- The `previewSize?.rows && previewSize?.cols` branch of `pickBoardSize`
(lines 53-58). -/
def pickPreviewSize (mode : Option String) (preview : Option GridSize) : GridSize :=
  match preview with
  | some p => if 0 < p.rows ∧ 0 < p.cols then ⟨max 1 p.rows, max 1 p.cols⟩ else pickModeSize mode
  | none => pickModeSize mode

/-- The `pickBoardSize` (`phaser-board.tsx` lines 49-63). -/
def pickBoardSize (grid0 : Option (List (List String))) (mode : Option String)
    (preview : Option GridSize) : GridSize :=
  match grid0 with
  | some g =>
      if 0 < g.length ∧ 0 < (g.headD []).length then ⟨g.length, (g.headD []).length⟩
      else pickPreviewSize mode preview
  | none => pickPreviewSize mode preview

/-! ## Metrics resolver (`computeMetrics`, lines 102-130)

JS numbers carrying pixel sizes are modelled by `ℚ` (the divisions
`usable / cols` are exact rational operations, no rounding happens in the
source). -/

/-- The result record of `computeMetrics` (`BoardMetrics`, lines 21-30). -/
structure BoardMetrics where
  cellSize : Rat
  gap : Rat
  offsetY : Rat
  padding : Rat
  width : Rat
  height : Rat
  rows : Nat
  cols : Nat
deriving DecidableEq, Repr

/-- The `DEFAULT_METRICS.width` / `.height` / `.cellSize` (lines 32-41). -/
def DEFAULT_WIDTH : Rat := 640
def DEFAULT_HEIGHT : Rat := 640
def DEFAULT_CELL : Rat := 70

/-- The `safeWidth` (line 113). -/
def safeWidthOf (containerWidth : Rat) : Rat :=
  if 0 < containerWidth then containerWidth else DEFAULT_WIDTH

/-- The `safeHeight` (line 114). -/
def safeHeightOf (containerHeight : Option Rat) : Rat :=
  match containerHeight with
  | some h => if 0 < h then h else DEFAULT_HEIGHT
  | none => DEFAULT_HEIGHT

/-- The `padding` (line 115). -/
def paddingOf (containerWidth : Rat) : Rat :=
  if 640 ≤ safeWidthOf containerWidth then 12 else 8

/-- the width-constrained raw cell size `usableByWidth / cols`
(lines 119, 121). -/
def widthConstrainedCell (size : GridSize) (containerWidth : Rat) : Rat :=
  let cols : Nat := max 1 size.cols
  max 120 (safeWidthOf containerWidth - paddingOf containerWidth * 2 - 2 * ((cols : Rat) - 1))
    / (cols : Rat)

/-- the height-constrained raw cell size `usableByHeight / rows`
(lines 120, 122). -/
def heightConstrainedCell (size : GridSize) (containerWidth : Rat)
    (containerHeight : Option Rat) : Rat :=
  let rows : Nat := max 1 size.rows
  max 120 (safeHeightOf containerHeight - 32 - paddingOf containerWidth * 2 -
      2 * ((rows : Rat) - 1))
    / (rows : Rat)

/-- The `Math.min(72, Math.max(20, rawCell))` (line 124). -/
def clampCell (x : Rat) : Rat := min 72 (max 20 x)

/-- The `computeMetrics` (`phaser-board.tsx` lines 102-130), with the board
shape already resolved by `pickBoardSize` (line 109).  `containerHeight` is
optional in the source (`containerHeight?: number`). -/
def computeMetrics (size : GridSize) (containerWidth : Rat)
    (containerHeight : Option Rat) : BoardMetrics :=
  let rows : Nat := max 1 size.rows
  let cols : Nat := max 1 size.cols
  let padding : Rat := paddingOf containerWidth
  let gap : Rat := 2
  let offsetY : Rat := 32
  let rawCellByWidth : Rat :=
    if 0 < cols then widthConstrainedCell size containerWidth else DEFAULT_CELL
  let rawCellByHeight : Rat :=
    if 0 < rows then heightConstrainedCell size containerWidth containerHeight
    else DEFAULT_CELL
  let cellSize : Rat := clampCell (min rawCellByWidth rawCellByHeight)
  let width : Rat := padding * 2 + (cols : Rat) * cellSize + gap * ((cols : Rat) - 1)
  let height : Rat := offsetY + (rows : Rat) * cellSize + gap * ((rows : Rat) - 1) + padding
  ⟨cellSize, gap, offsetY, padding, width, height, rows, cols⟩

/-! ## Game state machine (`src/src/game/state-machine.ts`) -/

/-- The `GameState` (state-machine.ts). -/
inductive GameState where
  | MENU | LOADING | READY | REVEAL | CASCADE_LOOP
  | END_TICKET | PACK_LIST | REPLAY | SUMMARY
deriving DecidableEq, Repr

/-- The `StateContext` (state-machine.ts): three optional fields. -/
structure StateContext where
  mode : Option String
  packId : Option String
  ticketIndex : Option Int
deriving DecidableEq, Repr

/-- The `Partial<StateContext>`: each field is either absent (`none`) or present
with a (possibly `undefined`-valued, hence inner `Option`) value. -/
structure PartialContext where
  mode : Option (Option String)
  packId : Option (Option String)
  ticketIndex : Option (Option Int)
deriving DecidableEq, Repr

/-- The state of the closure created by `createStateMachine`. -/
structure StateMachine where
  state : GameState
  context : StateContext
deriving DecidableEq, Repr

/-- The `createStateMachine(initial)`: `ctx` starts empty, `current` starts at
`initial`. -/
def createStateMachine (initial : GameState) : StateMachine :=
  ⟨initial, ⟨none, none, none⟩⟩

/-- The `Object.assign(ctx, partial)`: keys present in `partial` overwrite,
absent keys keep the old value. -/
def mergeContext (ctx : StateContext) (p : PartialContext) : StateContext :=
  ⟨p.mode.getD ctx.mode, p.packId.getD ctx.packId, p.ticketIndex.getD ctx.ticketIndex⟩

/-- The `transition(next, partial?)` (state-machine.ts lines 45-50):
unconditionally set `current := next`; merge `partial` into `ctx` when
given. -/
def transition (m : StateMachine) (next : GameState) (p : Option PartialContext) :
    StateMachine :=
  ⟨next, match p with
         | some pp => mergeContext m.context pp
         | none => m.context⟩

/-! ## Bonus trigger highlight (`playBonusTriggerHighlight`, lines 518-557) -/

/-- insertion-order deduplication, as performed by the `explicitKeys` `Set`
in `playBonusTriggerHighlight` (first occurrence wins). -/
def dedupKeepFirst {α : Type} [DecidableEq α] : List α → List α
  | [] => []
  | a :: rest => a :: dedupKeepFirst (rest.filter (· ≠ a))
termination_by l => l.length
decreasing_by
  simpa using Nat.lt_succ_of_le (List.length_filter_le _ _)

/-- the validity test applied to each entry of `triggerCells`
(lines 531-534): in bounds and currently showing the trigger symbol. -/
def validTrigger (grid : List (List String)) (rows cols : Nat) (cell : CellRef) : Bool :=
  0 ≤ cell.row ∧ 0 ≤ cell.col ∧ cell.row < (rows : Int) ∧ cell.col < (cols : Int) ∧
    lookup2 grid cell.row.toNat cell.col.toNat = BONUS_TRIGGER_SYMBOL

/-- the `explicitTargets` list (lines 529-539): filter `triggerCells ?? []`
by validity, deduplicating by cell key in insertion order. -/
def explicitTargets (grid : List (List String)) (rows cols : Nat)
    (triggerCells : Option (List CellRef)) : List CellRef :=
  dedupKeepFirst ((triggerCells.getD []).filter (validTrigger grid rows cols))

/-- the `fallbackTargets` row-major scan (lines 543-550). -/
def fallbackTargets (grid : List (List String)) (rows cols : Nat) : List CellRef :=
  ((List.range rows).map fun row =>
    ((List.range cols).filterMap fun col =>
      if lookup2 grid row col = BONUS_TRIGGER_SYMBOL
      then some (⟨(row : Int), (col : Int)⟩ : CellRef) else none)).flatten

/-- The `Math.max(1, Math.min(BONUS_HIGHLIGHT_LIMIT, triggerCount || BONUS_HIGHLIGHT_LIMIT))`
(line 528; `x || y` yields `y` when `x` is `0`). -/
def requestedCount (triggerCount : Int) : Nat :=
  (max 1 (min BONUS_HIGHLIGHT_LIMIT
    (if triggerCount = 0 then BONUS_HIGHLIGHT_LIMIT else triggerCount))).toNat

/-- the `highlightTargets` selection of `playBonusTriggerHighlight`
(lines 541-552): first-`requestedCount` valid explicit cells; when that is
empty, first-`requestedCount` row-major trigger-symbol cells. -/
def highlightTargets (grid : List (List String)) (rows cols : Nat)
    (triggerCount : Int) (triggerCells : Option (List CellRef)) : List CellRef :=
  let n := requestedCount triggerCount
  let explicit := (explicitTargets grid rows cols triggerCells).take n
  if explicit = [] then
    let fallback := fallbackTargets grid rows cols
    fallback.take (min n fallback.length)
  else explicit

/-- Highlight selection as the specification words it ("the first
up-to-`triggerCount` listed cells that are in bounds and whose current
symbol equals the trigger symbol; when that selection is empty the grid is
scanned in row-major order for the trigger symbol, taking the first
`triggerCount` matches").  Used to compare `highlightTargets` against the
specified behaviour. -/
def specHighlightTargets (grid : List (List String)) (rows cols : Nat)
    (triggerCount : Int) (triggerCells : Option (List CellRef)) : List CellRef :=
  let n := triggerCount.toNat
  let listed := ((triggerCells.getD []).filter (validTrigger grid rows cols)).take n
  if listed = [] then (fallbackTargets grid rows cols).take n else listed

/-! ## Reel-spin ("rodillo") intro timing (`playBoardIntro`, lines 211-355)

The rodillo branch of `playBoardIntro` is timer driven: column `c` starts
dropping at `c * colStartDelay` and starts spinning `dropDuration` later;
a global spin timer ticks every `spinTickMs` milliseconds; each tick on
which the last column is spinning (and the stop sequence is not yet
scheduled) increments `lastColumnSpinSteps`; when that counter reaches
`requiredLastColumnSteps` the stop sequence is scheduled, stopping column
`c` after a further `c * stopDelay`.  The model below expresses those
event times directly. -/

def colStartDelay : Nat := 320
def rodilloDropDuration : Nat := 280
def stopDelay : Nat := 220
def settleDuration : Nat := 260
def spinTickMs : Nat := 90
def minTurnsLastColumn : Nat := 2

/-- The `requiredLastColumnSteps = rows * minTurnsLastColumn` (line 222), with
`rows = Math.max(1, boardSize.rows)` (line 217). -/
def requiredLastColumnSteps (rows : Nat) : Nat :=
  max 1 rows * minTurnsLastColumn

/-- the time at which the last column starts spinning: its drop is
scheduled at `(cols - 1) * colStartDelay` (line 344) and its spin flag is
set when the drop tween completes `rodilloDropDuration` later
(lines 326-339). -/
def lastColSpinStart (cols : Nat) : Nat :=
  (max 1 cols - 1) * colStartDelay + rodilloDropDuration

/-- number of spin-timer ticks (at times `spinTickMs * k`, `k ≥ 1`) that
the last column has completed by time `t`: ticks strictly after its spin
start and at or before `t`. -/
def lastColTicksBy (cols t : Nat) : Nat :=
  ((Finset.range (t / spinTickMs + 1)).filter
    (fun k => 1 ≤ k ∧ spinTickMs * k ≤ t ∧ lastColSpinStart cols < spinTickMs * k)).card

/-- the tick time at which `lastColumnSpinSteps` reaches
`requiredLastColumnSteps`, i.e. the moment `scheduleStopSequence`
(lines 270-296) runs. -/
def stopScheduleTime (rows cols : Nat) : Nat :=
  spinTickMs * (lastColSpinStart cols / spinTickMs + requiredLastColumnSteps rows)

/-- the time at which column `c` receives its stop command:
`scheduleStopSequence` issues `delayedCall(col * stopDelay, ...)`
(line 274). -/
def stopCommandTime (rows cols c : Nat) : Nat :=
  stopScheduleTime rows cols + c * stopDelay

/-! ## The cascade sequencer (`renderPlay` / `animateStep` / `clearBoard`)

The scene is single-threaded and timer driven; an uninterrupted run is the
sequential execution of the scheduled continuations and is modelled by
structural recursion over the cascade list.  Pending timer callbacks are
modelled as a list of `(runId, stepIndex)` tags so that the cancellation
behaviour of `time.removeAllEvents()` is expressible: `renderPlay` and
`clearBoard` both begin by dropping every pending callback. -/

/-- The `FillMode` (`phaser-board.tsx` line 9). -/
inductive FillMode where
  | replace | cascade | rodillo
deriving DecidableEq, Repr

/-- the notifications the scene emits on `gameBus` during a run, with their
payload values (wall-clock data excluded). -/
inductive Notif where
  | cascadeStep (playId : String) (stepIndex : Nat) (totalSteps : Nat)
  | winIncrement (playId : String) (amount : Rat)
  | bonusTriggered (playId : String) (bonusData : Option BonusData)
  | cascadeCompleted (playId : String) (totalSteps : Nat)
deriving DecidableEq, Repr

/-- the mutable fields of `BoardScene` that the sequencer reads or writes,
plus ghost bookkeeping (`runId`, `pending`) for scheduled timer callbacks
and the reel strips built by the rodillo intro (the only notification-path
consumer of `Math.random`). -/
structure SceneState where
  grid : List (List String)
  boardRows : Nat
  boardCols : Nat
  accumulatedWin : Rat
  currentPlay : Option PlayOutcome
  runId : Nat
  pending : List (Nat × Nat)
  introStrips : List (List String)
deriving Repr

/-- The `this.currentPlay?.playId` truthiness guard (lines 914, 925, 956). -/
def playIdTruthy (p : Option PlayOutcome) : Bool :=
  match p with
  | some play => play.playId ≠ ""
  | none => false

/-- the `symbolPool` / `reelSymbols` computation of the rodillo intro
(lines 223-231): distinct trimmed upper-cased non-empty symbols of the
current grid, falling back to the fixed alphabet. -/
def reelSymbols (grid : List (List String)) : List String :=
  let pool := dedupKeepFirst
    ((grid.flatten.map fun s => s.trim.toUpper).filter (· ≠ ""))
  if pool = [] then FALLBACK_STRIP_SYMBOLS else pool

/-- The `buildStrip` (lines 232-235): a strip of `max 28 (4 * |reel|)` symbols
drawn by `Math.random`, modelled by an explicit random stream `rng`
(indices are salted by the column so each column consumes fresh draws). -/
def buildStrip (reel : List String) (rng : Nat → Nat) (col : Nat) : List String :=
  let size := max 28 (reel.length * 4)
  (List.range size).map fun i =>
    if reel.length = 0 then "A" else reel.getD (rng (col * size + i) % reel.length) "A"

/-- the strips built for all columns when the rodillo intro starts
(line 238 inside `columnStates`). -/
def buildStrips (grid : List (List String)) (rng : Nat → Nat) (cols : Nat) :
    List (List String) :=
  (List.range cols).map (buildStrip (reelSymbols grid) rng)

/-- the synchronous part of `renderPlay(play)` (lines 868-897): remove all
pending timers and tweens, reset `currentPlay`, `accumulatedWin`, board
size and grid, draw the grid, start the intro (building reel strips in
rodillo mode), and schedule the step runner at index `0` for the fresh
run. -/
def renderPlayImmediate (mode : Option String) (preview : Option GridSize)
    (fm : FillMode) (rng : Nat → Nat) (s : SceneState) (play : PlayOutcome) :
    SceneState :=
  let size := pickBoardSize (some play.grid0) mode preview
  let rows := max 1 size.rows
  let cols := max 1 size.cols
  let grid := normalizeGrid play.grid0 rows cols
  { grid := grid
    boardRows := rows
    boardCols := cols
    accumulatedWin := 0
    currentPlay := some play
    runId := s.runId + 1
    pending := [(s.runId + 1, 0)]
    introStrips := if fm = FillMode.rodillo then buildStrips grid rng cols else [] }

/-- the synchronous part of `clearBoard()` (lines 185-197): remove all
pending timers and tweens, drop the current play, reset the accumulated win
and reset the grid to the empty board of the preview shape.  No run is
started. -/
def clearBoardImmediate (mode : Option String) (preview : Option GridSize)
    (s : SceneState) : SceneState :=
  let size := pickBoardSize none mode preview
  let rows := max 1 size.rows
  let cols := max 1 size.cols
  { grid := normalizeGrid [] rows cols
    boardRows := rows
    boardCols := cols
    accumulatedWin := 0
    currentPlay := none
    runId := s.runId
    pending := []
    introStrips := s.introStrips }

/-- The `animateStep(step, stepIndex, totalSteps, onComplete)` (lines 899-1112)
run to completion without interruption: the notifications it emits, in
order, and its effect on the scene state.  The cell-container and tween
manipulation of the two refill branches is visual only (it touches neither
`this.grid` nor any emitted payload) and is abstracted away; `this.grid`
is assigned `normalizeGrid(gridAfter ?? grid)` (lines 973-974) before the
fill-mode branch, so the resulting symbol matrix does not depend on
`fm`. -/
def animateStep (fm : FillMode) (s : SceneState) (step : CascadeStep)
    (stepIndex totalSteps : Nat) : SceneState × List Notif :=
  let pid := match s.currentPlay with
             | some p => p.playId
             | none => ""
  let stepNotif : List Notif :=
    if playIdTruthy s.currentPlay then [.cascadeStep pid (stepIndex + 1) totalSteps]
    else []
  if step.bonus then
    -- bonus branch (lines 922-934): highlight, emit bonus, no grid change
    (s, stepNotif ++
      (if playIdTruthy s.currentPlay then [.bonusTriggered pid step.bonusData] else []))
  else
    let stepWin := step.winStep
    let winNotif : List Notif :=
      if playIdTruthy s.currentPlay ∧ 0 < stepWin then [.winIncrement pid stepWin]
      else []
    let s₁ :=
      if playIdTruthy s.currentPlay ∧ 0 < stepWin then
        { s with accumulatedWin := s.accumulatedWin + stepWin }
      else s
    let nextGrid := step.gridAfter.getD s₁.grid
    let s₂ := { s₁ with grid := normalizeGrid nextGrid s₁.boardRows s₁.boardCols }
    match fm with
    | .replace => (s₂, stepNotif ++ winNotif)  -- in-place recreate branch (lines 978-1030)
    | _ => (s₂, stepNotif ++ winNotif)         -- gravity-drop branch (lines 1032-1104)

/-- the `runStep` loop of `renderPlay` (lines 884-896) executed to
completion: run each remaining cascade in order, then emit the terminal
`game:cascade:completed` with the played outcome's `playId` and total step
count (line 889; this emission is unconditional). -/
def runFrom (fm : FillMode) (pid : String) (total : Nat) :
    SceneState → List CascadeStep → Nat → SceneState × List Notif
  | s, [], _ => (s, [.cascadeCompleted pid total])
  | s, step :: rest, idx =>
      let r₁ := animateStep fm s step idx total
      let r₂ := runFrom fm pid total r₁.1 rest (idx + 1)
      (r₂.1, r₁.2 ++ r₂.2)

/-- Submitting an outcome and running the whole sequence to completion
without interruption: final scene state and full notification trace. -/
def renderPlayRun (mode : Option String) (preview : Option GridSize)
    (fm : FillMode) (rng : Nat → Nat) (s : SceneState) (play : PlayOutcome) :
    SceneState × List Notif :=
  let s₀ := renderPlayImmediate mode preview fm rng s play
  runFrom fm play.playId play.cascades.length s₀ play.cascades 0

/-- classifier for `game:cascade:step` notifications. -/
def isStepStarted : Notif → Bool
  | .cascadeStep _ _ _ => true
  | _ => false

/-- classifier for `game:win:increment` notifications. -/
def isWinIncrement : Notif → Bool
  | .winIncrement _ _ => true
  | _ => false

/-- classifier for `game:cascade:completed` notifications. -/
def isCompleted : Notif → Bool
  | .cascadeCompleted _ _ => true
  | _ => false

/-- the amount carried by a notification (`0` for non-win events). -/
def notifAmount : Notif → Rat
  | .winIncrement _ a => a
  | _ => 0

/-- the per-column incoming symbols lookup of the gravity-drop branch:
`step.dropIn.find((d) => d.col === col)?.symbols ?? []` (line 1068). -/
def dropSymbolsFor (dropIn : List DropIn) (col : Nat) : List String :=
  ((dropIn.find? fun d => d.col = (col : Int)).map DropIn.symbols).getD []

/-- the fields of the scene that the notification trace and the replayed
symbol matrix can depend on (everything except the ghost scheduling tags
and the random reel strips). -/
def SceneState.core (s : SceneState) :
    List (List String) × Nat × Nat × Rat × Option PlayOutcome :=
  (s.grid, s.boardRows, s.boardCols, s.accumulatedWin, s.currentPlay)

/-! ## Concrete example data (the 3×5 two-MatchStep outcome of §8 of the
spec, and a bonus board with exactly two trigger-symbol cells) -/

def exGrid0 : List (List String) :=
  [["A", "B", "C", "D", "E"], ["A", "B", "C", "D", "E"], ["A", "B", "C", "D", "E"]]

def exGridAfter1 : List (List String) :=
  [["X", "B", "C", "D", "E"], ["X", "B", "C", "D", "E"], ["X", "B", "C", "D", "E"]]

def exGridAfter2 : List (List String) :=
  [["Y", "Y", "C", "D", "E"], ["Y", "Y", "C", "D", "E"], ["Y", "B", "C", "D", "E"]]

/-- first MatchStep: removes 3 cells, `winStep = 10`. -/
def exStep1 : CascadeStep := ⟨[⟨0, 0⟩, ⟨1, 0⟩, ⟨2, 0⟩], [], 10, some exGridAfter1, false, none⟩

/-- second MatchStep: removes 4 cells, `winStep = 25`. -/
def exStep2 : CascadeStep :=
  ⟨[⟨0, 0⟩, ⟨0, 1⟩, ⟨1, 0⟩, ⟨1, 1⟩], [], 25, some exGridAfter2, false, none⟩

/-- the §8 example outcome: 3×5 board, two MatchSteps, no bonus. -/
def examplePlay : PlayOutcome := ⟨"p1", "nivel1", 1, exGrid0, [exStep1, exStep2], 35⟩

/-- a quiescent scene before any play. -/
def initialScene : SceneState := ⟨[], 1, 1, 0, none, 0, [], []⟩

/-- a 3×5 grid containing exactly two `"N"` trigger cells. -/
def exBonusGrid : List (List String) :=
  [["A", "N", "C", "D", "E"], ["A", "B", "C", "D", "E"], ["A", "B", "C", "N", "E"]]

/-- a scene in the middle of a run: a previous play is active and a timer
callback of run `0` is still pending. -/
def busyScene : SceneState := ⟨exGrid0, 3, 5, 0, some examplePlay, 0, [(0, 1)], []⟩

/-- whether a step emits a `game:win:increment` notification
(line 956: non-bonus step with positive `winStep`). -/
def winEmitted (st : CascadeStep) : Bool :=
  !st.bonus && decide (0 < st.winStep)

/-- the amount a step adds to `accumulatedWin` (line 957). -/
def winContribution (st : CascadeStep) : Rat :=
  if st.bonus = false ∧ 0 < st.winStep then st.winStep else 0

/-! ## Supporting lemmas -/

theorem clampCell_mono {a b : Rat} (h : a ≤ b) : clampCell a ≤ clampCell b :=
  min_le_min le_rfl (max_le_max le_rfl h)

theorem clampCell_min (a b : Rat) : clampCell (min a b) = min (clampCell a) (clampCell b) := by
  rcases le_total a b with hab | hab
  · rw [min_eq_left hab, min_eq_left (clampCell_mono hab)]
  · rw [min_eq_right hab, min_eq_right (clampCell_mono hab)]

theorem dedupKeepFirst_of_nodup {α : Type} [DecidableEq α] :
    ∀ {l : List α}, l.Nodup → dedupKeepFirst l = l
  | [], _ => by rw [dedupKeepFirst]
  | a :: rest, h => by
      rw [dedupKeepFirst]
      have ha : a ∉ rest := (List.nodup_cons.mp h).1
      have hfilter : rest.filter (· ≠ a) = rest :=
        List.filter_eq_self.mpr fun x hx => by
          have hxa : x ≠ a := fun hxa => ha (hxa ▸ hx)
          simp [hxa]
      rw [hfilter, dedupKeepFirst_of_nodup (List.nodup_cons.mp h).2]

theorem requestedCount_eq {tc : Int} (h1 : 1 ≤ tc) (h3 : tc ≤ 3) :
    requestedCount tc = tc.toNat := by
  unfold requestedCount BONUS_HIGHLIGHT_LIMIT
  rw [if_neg (by omega), min_eq_right h3, max_eq_right h1]

/-! ## C10: the state machine transitions unconditionally and merges
context frame-preservingly -/

/-- C10: for every current state, next state and partial context,
`transition(next, partial)` unconditionally sets the machine's state to
`next` and merges `partial` into the context, leaving every context key not
present in `partial` unchanged. -/
theorem transition_unconditional_merge (m : StateMachine) (next : GameState)
    (p : PartialContext) :
    (transition m next (some p)).state = next ∧
    (transition m next none).state = next ∧
    (transition m next none).context = m.context ∧
    (transition m next (some p)).context = mergeContext m.context p ∧
    (p.mode = none → (transition m next (some p)).context.mode = m.context.mode) ∧
    (p.packId = none → (transition m next (some p)).context.packId = m.context.packId) ∧
    (p.ticketIndex = none →
      (transition m next (some p)).context.ticketIndex = m.context.ticketIndex) ∧
    (∀ v, p.mode = some v → (transition m next (some p)).context.mode = v) ∧
    (∀ v, p.packId = some v → (transition m next (some p)).context.packId = v) ∧
    (∀ v, p.ticketIndex = some v →
      (transition m next (some p)).context.ticketIndex = v) := by
  refine ⟨rfl, rfl, rfl, rfl, ?_, ?_, ?_, ?_, ?_, ?_⟩
  · intro hmode; simp [transition, mergeContext, hmode]
  · intro hpack; simp [transition, mergeContext, hpack]
  · intro htick; simp [transition, mergeContext, htick]
  · intro v hmode; simp [transition, mergeContext, hmode]
  · intro v hpack; simp [transition, mergeContext, hpack]
  · intro v htick; simp [transition, mergeContext, htick]

/-- witness for C10 at a concrete machine and partial context. -/
theorem transition_unconditional_merge_witness :
    (transition (createStateMachine .MENU) .READY
        (some ⟨some (some "nivel1"), none, none⟩)).state = .READY ∧
    (transition (createStateMachine .MENU) .READY
        (some ⟨some (some "nivel1"), none, none⟩)).context.mode = some "nivel1" ∧
    (transition (createStateMachine .MENU) .READY
        (some ⟨some (some "nivel1"), none, none⟩)).context.packId = none := by
  have h := transition_unconditional_merge (createStateMachine .MENU) .READY
    ⟨some (some "nivel1"), none, none⟩
  exact ⟨h.1, h.2.2.2.2.2.2.2.1 (some "nivel1") rfl,
    by simpa using h.2.2.2.2.2.1 rfl⟩

/-! ## C8: the metrics resolver clamps the cell size and encloses the
whole board -/

/-- C8: `computeMetrics` is a pure function of the board shape and
container size which picks the smaller of the width-constrained and
height-constrained cell size, clamps it to `[20, 72]`, and returns a
canvas that encloses the whole board (padding + cols·cellSize + gaps
horizontally, offset + rows·cellSize + gaps vertically), for every
positive container size and every board shape with at least one row and
one column. -/
theorem computeMetrics_clamp_and_fit (size : GridSize) (w h : Rat)
    (_hw : 0 < w) (_hh : 0 < h) (hr : 1 ≤ size.rows) (hc : 1 ≤ size.cols) :
    (computeMetrics size w (some h)).cellSize =
        min (clampCell (widthConstrainedCell size w))
          (clampCell (heightConstrainedCell size w (some h))) ∧
    20 ≤ (computeMetrics size w (some h)).cellSize ∧
    (computeMetrics size w (some h)).cellSize ≤ 72 ∧
    (computeMetrics size w (some h)).width =
      (computeMetrics size w (some h)).padding * 2 +
        (size.cols : Rat) * (computeMetrics size w (some h)).cellSize +
        (computeMetrics size w (some h)).gap * ((size.cols : Rat) - 1) ∧
    (computeMetrics size w (some h)).height =
      (computeMetrics size w (some h)).offsetY +
        (size.rows : Rat) * (computeMetrics size w (some h)).cellSize +
        (computeMetrics size w (some h)).gap * ((size.rows : Rat) - 1) +
        (computeMetrics size w (some h)).padding ∧
    (computeMetrics size w (some h)).padding +
        (size.cols : Rat) * (computeMetrics size w (some h)).cellSize +
        (computeMetrics size w (some h)).gap * ((size.cols : Rat) - 1) ≤
      (computeMetrics size w (some h)).width ∧
    (computeMetrics size w (some h)).offsetY +
        (size.rows : Rat) * (computeMetrics size w (some h)).cellSize +
        (computeMetrics size w (some h)).gap * ((size.rows : Rat) - 1) ≤
      (computeMetrics size w (some h)).height := by
  have hrow : max 1 size.rows = size.rows := max_eq_right hr
  have hcol : max 1 size.cols = size.cols := max_eq_right hc
  have hc0 : 0 < size.cols := hc
  have hr0 : 0 < size.rows := hr
  have hp : (0 : Rat) < paddingOf w := by
    unfold paddingOf; split <;> norm_num
  refine ⟨?_, ?_, ?_, ?_, ?_, ?_, ?_⟩ <;>
    simp only [computeMetrics, hrow, hcol, if_pos hc0, if_pos hr0] <;>
    first
      | exact clampCell_min _ _
      | exact le_min (by norm_num) (le_max_left _ _)
      | exact min_le_left _ _
      | linarith

/-- witness for C8 at a 3×5 board in an 800×600 container. -/
theorem computeMetrics_clamp_and_fit_witness :
    20 ≤ (computeMetrics ⟨3, 5⟩ 800 (some 600)).cellSize ∧
    (computeMetrics ⟨3, 5⟩ 800 (some 600)).cellSize ≤ 72 ∧
    (computeMetrics ⟨3, 5⟩ 800 (some 600)).padding +
        (5 : Rat) * (computeMetrics ⟨3, 5⟩ 800 (some 600)).cellSize +
        (computeMetrics ⟨3, 5⟩ 800 (some 600)).gap * ((5 : Rat) - 1) ≤
      (computeMetrics ⟨3, 5⟩ 800 (some 600)).width := by
  have h := computeMetrics_clamp_and_fit ⟨3, 5⟩ 800 600 (by norm_num) (by norm_num)
    (by norm_num) (by norm_num)
  exact ⟨h.2.1, h.2.2.1, h.2.2.2.2.2.1⟩

/-! ## C6: bonus-trigger highlight selection -/

/-- C6: the highlight selection of `playBonusTriggerHighlight` matches the
specified behaviour: the first up-to-`triggerCount` listed `triggerCells`
that are in bounds and currently show the trigger symbol; when that
selection is empty, the first `triggerCount` trigger-symbol cells of a
row-major scan (for duplicate-free `triggerCells`, as required of valid
data, and `1 ≤ triggerCount ≤ 3`). -/
theorem highlight_matches_spec (grid : List (List String)) (rows cols : Nat)
    (tc : Int) (cells : Option (List CellRef))
    (h1 : 1 ≤ tc) (h3 : tc ≤ 3)
    (hnd : ((cells.getD []).filter (validTrigger grid rows cols)).Nodup) :
    highlightTargets grid rows cols tc cells =
      specHighlightTargets grid rows cols tc cells := by
  unfold highlightTargets specHighlightTargets explicitTargets
  rw [requestedCount_eq h1 h3, dedupKeepFirst_of_nodup hnd]
  by_cases hempty :
      (((cells.getD []).filter (validTrigger grid rows cols)).take tc.toNat) = []
  · rw [if_pos hempty, if_pos hempty]
    rw [List.take_eq_take]
    omega
  · rw [if_neg hempty, if_neg hempty]

/-- witness for C6: the §8 example — `triggerCells` omitted, exactly two
trigger-symbol cells on the grid, `triggerCount = 3` highlights exactly
those two cells. -/
theorem highlight_matches_spec_witness :
    highlightTargets exBonusGrid 3 5 3 none = [⟨0, 1⟩, ⟨2, 3⟩] := by
  have h := highlight_matches_spec exBonusGrid 3 5 3 none (by norm_num) (by norm_num)
    (by decide)
  rw [h]
  decide

/-! ## C7: reel-spin stop sequence timing -/

theorem lastColTicksBy_at_schedule (rows cols : Nat) :
    lastColTicksBy cols (stopScheduleTime rows cols) = requiredLastColumnSteps rows := by
  unfold lastColTicksBy stopScheduleTime spinTickMs
  generalize lastColSpinStart cols = L
  generalize requiredLastColumnSteps rows = R
  rw [Nat.mul_div_cancel_left _ (by norm_num : 0 < 90)]
  have hset : (Finset.range (L / 90 + R + 1)).filter
      (fun k => 1 ≤ k ∧ 90 * k ≤ 90 * (L / 90 + R) ∧ L < 90 * k) =
      Finset.Ioc (L / 90) (L / 90 + R) := by
    ext k
    simp only [Finset.mem_filter, Finset.mem_range, Finset.mem_Ioc]
    omega
  rw [hset, Nat.card_Ioc]
  omega

theorem lastColTicksBy_mono (cols : Nat) {t t' : Nat} (h : t ≤ t') :
    lastColTicksBy cols t ≤ lastColTicksBy cols t' := by
  apply Finset.card_le_card
  intro k hk
  simp only [lastColTicksBy, spinTickMs, Finset.mem_filter, Finset.mem_range] at hk ⊢
  obtain ⟨hk1, hk2, hk3, hk4⟩ := hk
  have hdiv : t / 90 ≤ t' / 90 := Nat.div_le_div_right h
  exact ⟨by omega, hk2, le_trans hk3 h, hk4⟩

/-- C7: in rodillo mode, no column receives its stop command before the
rightmost column has completed the configured minimum number of spin ticks
(`rows * minTurnsLastColumn`), and stop commands are issued left-to-right
with a fixed per-column delay, the rightmost column stopping last. -/
theorem rodillo_stop_after_min_ticks (rows cols c : Nat)
    (hr : 1 ≤ rows) (hc : 1 ≤ cols) (hcc : c < cols) :
    requiredLastColumnSteps rows = rows * minTurnsLastColumn ∧
    requiredLastColumnSteps rows ≤ lastColTicksBy cols (stopCommandTime rows cols c) ∧
    (∀ c₁ c₂, c₁ < c₂ → c₂ < cols → stopCommandTime rows cols c₁ < stopCommandTime rows cols c₂) ∧
    (stopCommandTime rows cols c ≤ stopCommandTime rows cols (cols - 1)) := by
  refine ⟨?_, ?_, ?_, ?_⟩
  · unfold requiredLastColumnSteps
    rw [max_eq_right hr]
  · have hsched := lastColTicksBy_at_schedule rows cols
    have hle : stopScheduleTime rows cols ≤ stopCommandTime rows cols c :=
      Nat.le_add_right _ _
    have hmono := lastColTicksBy_mono cols hle
    omega
  · intro c₁ c₂ h12 _
    unfold stopCommandTime
    have hlt : c₁ * stopDelay < c₂ * stopDelay := by
      apply Nat.mul_lt_mul_of_lt_of_le h12 le_rfl
      norm_num [stopDelay]
    omega
  · unfold stopCommandTime
    have hle : c * stopDelay ≤ (cols - 1) * stopDelay :=
      Nat.mul_le_mul_right _ (by omega)
    omega

/-- witness for C7 at a 3×5 board, first column. -/
theorem rodillo_stop_after_min_ticks_witness :
    requiredLastColumnSteps 3 = 3 * minTurnsLastColumn ∧
    requiredLastColumnSteps 3 ≤ lastColTicksBy 5 (stopCommandTime 3 5 0) ∧
    (∀ c₁ c₂, c₁ < c₂ → c₂ < 5 → stopCommandTime 3 5 c₁ < stopCommandTime 3 5 c₂) ∧
    (stopCommandTime 3 5 0 ≤ stopCommandTime 3 5 (5 - 1)) :=
  rodillo_stop_after_min_ticks 3 5 0 (by norm_num) (by norm_num) (by norm_num)

/-! ## Sequencer lemmas -/

theorem animateStep_fm_irrel (fm fm' : FillMode) (s : SceneState) (step : CascadeStep)
    (i t : Nat) : animateStep fm s step i t = animateStep fm' s step i t := by
  cases fm <;> cases fm' <;> rfl

theorem animateStep_fields (fm : FillMode) (s : SceneState) (step : CascadeStep)
    (i t : Nat) :
    (animateStep fm s step i t).1.currentPlay = s.currentPlay ∧
    (animateStep fm s step i t).1.boardRows = s.boardRows ∧
    (animateStep fm s step i t).1.boardCols = s.boardCols := by
  cases fm <;> cases hb : step.bonus <;>
    simp [animateStep, hb] <;> split_ifs <;> simp

theorem animateStep_accumulatedWin (fm : FillMode) (s : SceneState) (step : CascadeStep)
    (i t : Nat) (play : PlayOutcome) (hs : s.currentPlay = some play)
    (hp : play.playId ≠ "") :
    (animateStep fm s step i t).1.accumulatedWin =
      s.accumulatedWin + winContribution step := by
  have htruthy : playIdTruthy s.currentPlay = true := by simp [playIdTruthy, hs, hp]
  cases fm <;> cases hb : step.bonus <;>
    simp [animateStep, hb, htruthy, winContribution] <;> split_ifs <;> simp_all

theorem animateStep_notifs (fm : FillMode) (s : SceneState) (step : CascadeStep)
    (i t : Nat) (play : PlayOutcome) (hs : s.currentPlay = some play)
    (hp : play.playId ≠ "") :
    (animateStep fm s step i t).2 =
      Notif.cascadeStep play.playId (i + 1) t ::
        (if step.bonus then [Notif.bonusTriggered play.playId step.bonusData]
         else if 0 < step.winStep then [Notif.winIncrement play.playId step.winStep]
         else []) := by
  have htruthy : playIdTruthy s.currentPlay = true := by simp [playIdTruthy, hs, hp]
  cases fm <;> cases hb : step.bonus <;>
    simp [animateStep, hb, htruthy, hs] <;> split_ifs <;> simp_all

theorem runFrom_spec (fm : FillMode) (play : PlayOutcome) (total : Nat)
    (hp : play.playId ≠ "") :
    ∀ (steps : List CascadeStep) (s : SceneState) (idx : Nat),
      s.currentPlay = some play →
      ((runFrom fm play.playId total s steps idx).2.filter isStepStarted =
          (List.range steps.length).map
            (fun j => Notif.cascadeStep play.playId (idx + j + 1) total)) ∧
      ((runFrom fm play.playId total s steps idx).2.filter isCompleted =
          [Notif.cascadeCompleted play.playId total]) ∧
      ((runFrom fm play.playId total s steps idx).2.filter isWinIncrement =
          (steps.filter winEmitted).map
            (fun st => Notif.winIncrement play.playId st.winStep)) ∧
      ((runFrom fm play.playId total s steps idx).1.accumulatedWin =
          s.accumulatedWin + (steps.map winContribution).sum)
  | [], s, idx, hs => by
      simp [runFrom, isStepStarted, isCompleted, isWinIncrement]
  | step :: rest, s, idx, hs => by
      have hnotifs := animateStep_notifs fm s step idx total play hs hp
      have hacc := animateStep_accumulatedWin fm s step idx total play hs hp
      have hcur := (animateStep_fields fm s step idx total).1
      have ih := runFrom_spec fm play total hp rest (animateStep fm s step idx total).1
        (idx + 1) (by rw [hcur, hs])
      obtain ⟨ih1, ih2, ih3, ih4⟩ := ih
      refine ⟨?_, ?_, ?_, ?_⟩
      · rw [runFrom]
        simp only [List.filter_append, hnotifs, ih1, List.filter_cons]
        cases hb : step.bonus <;> by_cases hw : 0 < step.winStep <;>
          simp [hb, hw, isStepStarted, List.range_succ_eq_map,
            List.map_map, Function.comp] <;>
          · intro j hj
            omega
      · rw [runFrom]
        simp only [List.filter_append, hnotifs, ih2, List.filter_cons]
        cases hb : step.bonus <;> by_cases hw : 0 < step.winStep <;>
          simp [hb, hw, isCompleted]
      · rw [runFrom]
        simp only [List.filter_append, hnotifs, ih3, List.filter_cons]
        cases hb : step.bonus <;> by_cases hw : 0 < step.winStep <;>
          simp [hb, hw, isWinIncrement, winEmitted]
      · rw [runFrom]
        simp only [ih4, hacc, List.map_cons, List.sum_cons]
        ring

theorem runFrom_getLast (fm : FillMode) (pid : String) (total : Nat) :
    ∀ (steps : List CascadeStep) (s : SceneState) (idx : Nat),
      ((runFrom fm pid total s steps idx).2).getLast? =
        some (Notif.cascadeCompleted pid total)
  | [], s, idx => by simp [runFrom]
  | step :: rest, s, idx => by
      have ih := runFrom_getLast fm pid total rest (animateStep fm s step idx total).1
        (idx + 1)
      rw [runFrom]
      have hne : (runFrom fm pid total (animateStep fm s step idx total).1 rest
          (idx + 1)).2 ≠ [] := by
        intro hnil
        rw [hnil] at ih
        simp at ih
      rw [List.getLast?_append_of_ne_nil _ hne, ih]

theorem animateStep_congr (fm : FillMode) (s s' : SceneState) (step : CascadeStep)
    (i t : Nat) (hg : s.grid = s'.grid) (hr : s.boardRows = s'.boardRows)
    (hc : s.boardCols = s'.boardCols) (ha : s.accumulatedWin = s'.accumulatedWin)
    (hcp : s.currentPlay = s'.currentPlay) :
    (animateStep fm s step i t).2 = (animateStep fm s' step i t).2 ∧
    (animateStep fm s step i t).1.grid = (animateStep fm s' step i t).1.grid ∧
    (animateStep fm s step i t).1.boardRows = (animateStep fm s' step i t).1.boardRows ∧
    (animateStep fm s step i t).1.boardCols = (animateStep fm s' step i t).1.boardCols ∧
    (animateStep fm s step i t).1.accumulatedWin =
      (animateStep fm s' step i t).1.accumulatedWin ∧
    (animateStep fm s step i t).1.currentPlay =
      (animateStep fm s' step i t).1.currentPlay := by
  cases fm <;> cases hb : step.bonus <;>
    simp [animateStep, hb, hg, hr, hc, ha, hcp] <;> split_ifs <;>
    simp [hg, hr, hc, ha, hcp]

theorem runFrom_congr (fm : FillMode) (pid : String) (total : Nat) :
    ∀ (steps : List CascadeStep) (s s' : SceneState) (idx : Nat),
      s.grid = s'.grid → s.boardRows = s'.boardRows → s.boardCols = s'.boardCols →
      s.accumulatedWin = s'.accumulatedWin → s.currentPlay = s'.currentPlay →
      (runFrom fm pid total s steps idx).2 = (runFrom fm pid total s' steps idx).2
  | [], s, s', idx, _, _, _, _, _ => rfl
  | step :: rest, s, s', idx, hg, hr, hc, ha, hcp => by
      obtain ⟨h2, hg', hr', hc', ha', hcp'⟩ :=
        animateStep_congr fm s s' step idx total hg hr hc ha hcp
      have ih := runFrom_congr fm pid total rest (animateStep fm s step idx total).1
        (animateStep fm s' step idx total).1 (idx + 1) hg' hr' hc' ha' hcp'
      rw [runFrom, runFrom, h2, ih]

theorem sum_notifAmount_filter :
    ∀ t : List Notif,
      ((t.filter isWinIncrement).map notifAmount).sum = (t.map notifAmount).sum
  | [] => rfl
  | n :: rest => by
      cases n <;> simp [isWinIncrement, notifAmount, sum_notifAmount_filter rest]

theorem sum_winContribution_eq :
    ∀ l : List CascadeStep,
      (∀ st ∈ l, 0 ≤ st.winStep ∧ (st.bonus = true → st.winStep = 0)) →
      (l.map winContribution).sum = (l.map CascadeStep.winStep).sum
  | [], _ => rfl
  | st :: rest, h => by
      have hst := h st (by simp)
      have ih := sum_winContribution_eq rest fun x hx => h x (by simp [hx])
      simp only [List.map_cons, List.sum_cons, ih]
      congr 1
      unfold winContribution
      split_ifs with hcond
      · rfl
      · obtain ⟨hnonneg, hbz⟩ := hst
        cases hbb : st.bonus
        · have hnpos : ¬ 0 < st.winStep := fun hpos => hcond ⟨hbb, hpos⟩
          exact (le_antisymm (not_lt.mp hnpos) hnonneg).symm
        · exact (hbz hbb).symm

theorem sum_filter_winEmitted :
    ∀ l : List CascadeStep,
      ((l.filter winEmitted).map CascadeStep.winStep).sum = (l.map winContribution).sum
  | [] => rfl
  | st :: rest => by
      cases hb : st.bonus <;> by_cases hw : 0 < st.winStep <;>
        simp [winEmitted, winContribution, hb, hw, List.filter_cons,
          sum_filter_winEmitted rest]

theorem find?_filter_eq {α : Type} (p q : α → Bool) (h : ∀ a, p a = true → q a = true) :
    ∀ l : List α, (l.filter q).find? p = l.find? p
  | [] => rfl
  | a :: tl => by
      by_cases hq : q a = true
      · rw [List.filter_cons_of_pos hq]
        cases hp : p a
        · rw [List.find?_cons_of_neg _ (by simp [hp]), List.find?_cons_of_neg _ (by simp [hp]),
            find?_filter_eq p q h tl]
        · rw [List.find?_cons_of_pos _ hp, List.find?_cons_of_pos _ hp]
      · have hp : p a = false := by
          cases hpa : p a
          · rfl
          · exact absurd (h a hpa) hq
        rw [List.filter_cons_of_neg (by simp [hq]), List.find?_cons_of_neg _ (by simp [hp]),
          find?_filter_eq p q h tl]

/-! ## C1: step-started notifications -/

/-- C1 counterexample: on the §8 example outcome the engine's first
step-started notification carries index `1`, not `0`; no index-`0`
step-started notification is ever emitted, refuting the claimed 0-based
payload indexing. -/
theorem stepStarted_not_zero_indexed :
    (renderPlayRun none none FillMode.replace (fun _ => 0) initialScene
        examplePlay).2.filter isStepStarted =
      [Notif.cascadeStep "p1" 1 2, Notif.cascadeStep "p1" 2 2] ∧
    Notif.cascadeStep "p1" 0 2 ∉
      (renderPlayRun none none FillMode.replace (fun _ => 0) initialScene
        examplePlay).2 := by
  constructor
  · decide
  · decide

/-- C1 (amended): for every outcome with a truthy `playId`, an
uninterrupted run emits exactly one step-started notification per cascade
step, in step order, with payload index `i + 1` (1-based) and total equal
to the step count, followed by exactly one terminal sequence-completed
notification whose `totalSteps` equals `cascades.length`; an outcome with
no cascades emits only the sequence-completed notification. -/
theorem stepStarted_once_per_step (mode : Option String) (preview : Option GridSize)
    (fm : FillMode) (rng : Nat → Nat) (s : SceneState) (play : PlayOutcome)
    (hp : play.playId ≠ "") :
    (renderPlayRun mode preview fm rng s play).2.filter isStepStarted =
      (List.range play.cascades.length).map
        (fun i => Notif.cascadeStep play.playId (i + 1) play.cascades.length) ∧
    (renderPlayRun mode preview fm rng s play).2.filter isCompleted =
      [Notif.cascadeCompleted play.playId play.cascades.length] ∧
    (renderPlayRun mode preview fm rng s play).2.getLast? =
      some (Notif.cascadeCompleted play.playId play.cascades.length) ∧
    (play.cascades = [] →
      (renderPlayRun mode preview fm rng s play).2 =
        [Notif.cascadeCompleted play.playId 0]) := by
  have hcur : (renderPlayImmediate mode preview fm rng s play).currentPlay = some play := rfl
  have h := runFrom_spec fm play play.cascades.length hp play.cascades
    (renderPlayImmediate mode preview fm rng s play) 0 hcur
  refine ⟨?_, h.2.1, ?_, ?_⟩
  · simpa using h.1
  · exact runFrom_getLast fm play.playId play.cascades.length play.cascades _ 0
  · intro he
    simp [renderPlayRun, he, runFrom]

/-- witness for the amended C1 at the §8 example outcome. -/
theorem stepStarted_once_per_step_witness :
    ("p1" : String) ≠ "" ∧
    (renderPlayRun none none FillMode.cascade (fun _ => 1) initialScene
        examplePlay).2.filter isStepStarted =
      (List.range examplePlay.cascades.length).map
        (fun i => Notif.cascadeStep "p1" (i + 1) examplePlay.cascades.length) := by
  refine ⟨by decide, ?_⟩
  exact (stepStarted_once_per_step none none FillMode.cascade (fun _ => 1) initialScene
    examplePlay (by decide)).1

/-! ## C2: win increments -/

/-- C2: for every outcome with a truthy `playId` whose steps have
non-negative `winStep` and whose bonus steps carry no win (the spec's data
model), a full run emits a win-incremented notification exactly for each
non-bonus step with positive `winStep`, carrying the step's delta; the
emitted deltas sum to the sum of `winStep` over all steps, and the scene's
accumulated win after the last step equals that same sum. -/
theorem winIncrement_deltas_sum (mode : Option String) (preview : Option GridSize)
    (fm : FillMode) (rng : Nat → Nat) (s : SceneState) (play : PlayOutcome)
    (hp : play.playId ≠ "")
    (hwf : ∀ st ∈ play.cascades, 0 ≤ st.winStep ∧ (st.bonus = true → st.winStep = 0)) :
    (renderPlayRun mode preview fm rng s play).2.filter isWinIncrement =
      (play.cascades.filter winEmitted).map
        (fun st => Notif.winIncrement play.playId st.winStep) ∧
    ((renderPlayRun mode preview fm rng s play).2.map notifAmount).sum =
      (play.cascades.map CascadeStep.winStep).sum ∧
    (renderPlayRun mode preview fm rng s play).1.accumulatedWin =
      (play.cascades.map CascadeStep.winStep).sum := by
  have hcur : (renderPlayImmediate mode preview fm rng s play).currentPlay = some play := rfl
  have h := runFrom_spec fm play play.cascades.length hp play.cascades
    (renderPlayImmediate mode preview fm rng s play) 0 hcur
  refine ⟨h.2.2.1, ?_, ?_⟩
  · rw [← sum_notifAmount_filter]
    have h3 : (renderPlayRun mode preview fm rng s play).2.filter isWinIncrement =
        (play.cascades.filter winEmitted).map
          (fun st => Notif.winIncrement play.playId st.winStep) := h.2.2.1
    rw [h3, List.map_map]
    have hcomp : (notifAmount ∘ fun st => Notif.winIncrement play.playId st.winStep) =
        CascadeStep.winStep := by
      funext st
      simp [notifAmount, Function.comp]
    rw [hcomp, sum_filter_winEmitted, sum_winContribution_eq _ hwf]
  · have hacc : (renderPlayRun mode preview fm rng s play).1.accumulatedWin =
        (0 : Rat) + (play.cascades.map winContribution).sum := h.2.2.2
    rw [hacc, zero_add, sum_winContribution_eq _ hwf]

/-- witness for C2 at the §8 example outcome (deltas `10` and `25`). -/
theorem winIncrement_deltas_sum_witness :
    ("p1" : String) ≠ "" ∧
    (renderPlayRun none none FillMode.replace (fun _ => 2) initialScene
        examplePlay).1.accumulatedWin = 35 := by
  refine ⟨by decide, ?_⟩
  have h := winIncrement_deltas_sum none none FillMode.replace (fun _ => 2) initialScene
    examplePlay (by decide) (by decide)
  rw [h.2.2]
  norm_num [examplePlay, exStep1, exStep2]

/-! ## C3: determinism and idempotent replay -/

/-- C3: submitting the same outcome twice in a row (the second run over the
state left by the first) produces identical notification traces, and the
trace is independent of the prior scene state and of the client-side
random stream consumed by the reel strips and effects — no emitted payload
depends on `Math.random`. -/
theorem replay_trace_deterministic (mode : Option String) (preview : Option GridSize)
    (fm : FillMode) (play : PlayOutcome) (s₁ s₂ : SceneState) (rng₁ rng₂ : Nat → Nat) :
    (renderPlayRun mode preview fm rng₁ s₁ play).2 =
      (renderPlayRun mode preview fm rng₂ s₂ play).2 ∧
    (renderPlayRun mode preview fm rng₂
        (renderPlayRun mode preview fm rng₁ s₁ play).1 play).2 =
      (renderPlayRun mode preview fm rng₁ s₁ play).2 := by
  have key : ∀ (sa sb : SceneState) (ra rb : Nat → Nat),
      (renderPlayRun mode preview fm ra sa play).2 =
        (renderPlayRun mode preview fm rb sb play).2 := by
    intro sa sb ra rb
    exact runFrom_congr fm play.playId play.cascades.length play.cascades
      (renderPlayImmediate mode preview fm ra sa play)
      (renderPlayImmediate mode preview fm rb sb play) 0 rfl rfl rfl rfl rfl
  exact ⟨key s₁ s₂ rng₁ rng₂, key _ s₁ rng₂ rng₁⟩

/-! ## C4: cancellation on re-submit / clear -/

/-- C4: submitting a new outcome or clearing the board while a sequence is
active removes every previously scheduled timer callback (so zero
notifications from the previous sequence can be emitted after the call),
and the scene's grid immediately equals the new outcome's `grid0`
normalized to the board shape (or the empty board for clear). -/
theorem submit_cancels_previous (mode : Option String) (preview : Option GridSize)
    (fm : FillMode) (rng : Nat → Nat) (s : SceneState) (play : PlayOutcome)
    (hinv : ∀ p ∈ s.pending, p.1 ≤ s.runId) :
    (∀ p ∈ s.pending, p ∉ (renderPlayImmediate mode preview fm rng s play).pending) ∧
    (renderPlayImmediate mode preview fm rng s play).grid =
      normalizeGrid play.grid0
        (max 1 (pickBoardSize (some play.grid0) mode preview).rows)
        (max 1 (pickBoardSize (some play.grid0) mode preview).cols) ∧
    (clearBoardImmediate mode preview s).pending = [] ∧
    (clearBoardImmediate mode preview s).grid =
      normalizeGrid [] (max 1 (pickBoardSize none mode preview).rows)
        (max 1 (pickBoardSize none mode preview).cols) := by
  refine ⟨?_, rfl, rfl, rfl⟩
  intro p hp hmem
  have hle := hinv p hp
  simp [renderPlayImmediate] at hmem
  subst hmem
  simp at hle

/-- witness for C4 at a scene holding a pending timer of a previous run. -/
theorem submit_cancels_previous_witness :
    (∀ p ∈ busyScene.pending, p.1 ≤ busyScene.runId) ∧
    (∀ p ∈ busyScene.pending,
      p ∉ (renderPlayImmediate none none FillMode.replace (fun _ => 0) busyScene
          examplePlay).pending) := by
  refine ⟨by decide, ?_⟩
  exact (submit_cancels_previous none none FillMode.replace (fun _ => 0) busyScene
    examplePlay (by decide)).1

/-! ## C5: `gridAfter` applied under every fill mode -/

/-- C5: after a MatchStep's mutation phase, the scene's symbol matrix
equals the step's `gridAfter` normalized to the board shape, and the
step's entire effect is identical under every fill-mode strategy (the
symbol matrix is assigned before the fill-mode branch). -/
theorem gridAfter_applied_every_mode (fm fm' : FillMode) (s : SceneState)
    (step : CascadeStep) (i t : Nat) (g : List (List String))
    (hb : step.bonus = false) (hg : step.gridAfter = some g) :
    (animateStep fm s step i t).1.grid = normalizeGrid g s.boardRows s.boardCols ∧
    animateStep fm s step i t = animateStep fm' s step i t := by
  refine ⟨?_, animateStep_fm_irrel fm fm' s step i t⟩
  cases fm <;> simp [animateStep, hb, hg] <;> split_ifs <;> rfl

/-- witness for C5 at the §8 example's first MatchStep under rodillo
mode. -/
theorem gridAfter_applied_every_mode_witness :
    exStep1.bonus = false ∧ exStep1.gridAfter = some exGridAfter1 ∧
    (animateStep FillMode.rodillo busyScene exStep1 0 2).1.grid =
      normalizeGrid exGridAfter1 busyScene.boardRows busyScene.boardCols :=
  ⟨rfl, rfl,
    (gridAfter_applied_every_mode FillMode.rodillo FillMode.replace busyScene exStep1 0 2
      exGridAfter1 rfl rfl).1⟩

/-! ## C9: malformed data safety -/

/-- C9: the engine never crashes on malformed data: every grid is
padded/clamped to exactly `rows × cols` entries (missing cells becoming
the empty symbol), every run — malformed or not — still completes and ends
with its terminal sequence-completed notification, and out-of-range
`dropIn` column entries are ignored by the per-column refill lookup. -/
theorem malformed_data_safe :
    (∀ (grid : List (List String)) (rows cols : Nat),
        (normalizeGrid grid rows cols).length = rows ∧
        ∀ row ∈ normalizeGrid grid rows cols, row.length = cols) ∧
    (∀ (mode : Option String) (preview : Option GridSize) (fm : FillMode)
        (rng : Nat → Nat) (s : SceneState) (play : PlayOutcome),
        ((renderPlayRun mode preview fm rng s play).2).getLast? =
          some (Notif.cascadeCompleted play.playId play.cascades.length)) ∧
    (∀ (dropIn : List DropIn) (cols col : Nat), col < cols →
        dropSymbolsFor (dropIn.filter fun d =>
            decide (0 ≤ d.col) && decide (d.col < (cols : Int))) col =
          dropSymbolsFor dropIn col) := by
  refine ⟨?_, ?_, ?_⟩
  · intro grid rows cols
    refine ⟨by simp [normalizeGrid], ?_⟩
    intro row hrow
    simp only [normalizeGrid, List.mem_map] at hrow
    obtain ⟨r, _, rfl⟩ := hrow
    simp
  · intro mode preview fm rng s play
    exact runFrom_getLast fm play.playId play.cascades.length play.cascades _ 0
  · intro dropIn cols col hcol
    have himp : ∀ d : DropIn, (decide (d.col = (col : Int))) = true →
        (decide (0 ≤ d.col) && decide (d.col < (cols : Int))) = true := by
      intro d hd
      simp only [decide_eq_true_eq] at hd
      simp only [Bool.and_eq_true, decide_eq_true_eq]
      omega
    unfold dropSymbolsFor
    rw [find?_filter_eq _ _ himp dropIn]

/-- witness for C9: a grid padded to shape and an out-of-range `dropIn`
column being ignored. -/
theorem malformed_data_safe_witness :
    (normalizeGrid [["A"]] 2 3).length = 2 ∧
    dropSymbolsFor (([⟨7, ["Q"]⟩, ⟨1, ["R"]⟩] : List DropIn).filter fun d =>
        decide (0 ≤ d.col) && decide (d.col < ((5 : Nat) : Int))) 1 =
      dropSymbolsFor [⟨7, ["Q"]⟩, ⟨1, ["R"]⟩] 1 :=
  ⟨(malformed_data_safe.1 [["A"]] 2 3).1,
    malformed_data_safe.2.2 [⟨7, ["Q"]⟩, ⟨1, ["R"]⟩] 5 1 (by norm_num)⟩

end Piloto
